import Mathlib

/-!
Verification of the qrenderdoc ResourceInspector panel
(src/qrenderdoc/Windows/ResourceInspector.cpp): the usage-event
coalescer and the asynchronous inspection session.

The embedding models the panel state as a structure and the handlers
`Inspect`, `OnLogfileClosed`, `OnEventChanged` as pure state
transformers.  The asynchronous fetch issued by `Inspect` via
`Replay().AsyncInvoke` is modelled by a `pending` queue of issued
`GetUsage` requests; a completion being marshalled back to the UI
thread is modelled by `completeFetch`, which runs exactly the body of
the `GUIInvoke::call` callback in the source (it appends the coalesced
usage rows to the usage view without any staleness check, because the
source callback performs none).
-/

/-- ResourceId: opaque comparable identifier; `0` is the default/null id
("no resource"), matching `ResourceId()`. -/
abbrev ResourceId := Nat

/-- A single raw usage observation: `EventUsage` from the replay API,
an event id plus an equality-comparable usage kind (kinds are modelled
as bare naturals since the core treats them as opaque tokens). -/
structure EventUsage where
  eventId : Nat
  usage : Nat
deriving DecidableEq, Repr

/-- A coalesced usage range as displayed in the usage view. -/
structure UsageRange where
  startEventId : Nat
  endEventId : Nat
  usageKind : Nat
deriving DecidableEq, Repr

/-- One structured chunk of the capture file (`SDChunk`): a name and
opaque structured children (modelled as strings). -/
structure SDChunk where
  name : String
  children : List String
deriving DecidableEq

/-- `ResourceDescription`: immutable per-capture record for one resource. -/
structure ResourceDescription where
  ID : ResourceId
  parentResources : List ResourceId
  derivedResources : List ResourceId
  initialisationChunks : List Nat
deriving DecidableEq

/-- The usage kind used for "Read" in the concrete scenarios. -/
def readKind : Nat := 1

/-- The usage kind used for "Write" in the concrete scenarios. -/
def writeKind : Nat := 2

/-- Modelled from the spec: the loop body of `CombineUsageEvents`,
whose definition is not part of this file's source (only its call
site is).  Walks the remaining events holding the open range
(startEID, lastEID, kind): an event of equal kind extends the open
range's end, a kind change emits the open range and opens a new one,
and the final open range is emitted at the end. -/
def combineGo (startEID lastEID kind : Nat) : List EventUsage → List UsageRange
  | [] => [⟨startEID, lastEID, kind⟩]
  | e :: es =>
    if e.usage = kind then
      combineGo startEID e.eventId kind es
    else
      ⟨startEID, lastEID, kind⟩ :: combineGo e.eventId e.eventId e.usage es

/-- Modelled from the spec: `CombineUsageEvents`, the usage coalescer,
whose definition is missing from this file's source (only its call site
in `ResourceInspector::Inspect` is present).  Empty input produces no
ranges; otherwise the open range is initialised from the first event
and the walk proceeds as in `combineGo`. -/
def CombineUsageEvents : List EventUsage → List UsageRange
  | [] => []
  | e :: es => combineGo e.eventId e.eventId e.usage es

/-- The claim's ordering hypothesis on raw events: non-decreasing event id. -/
def eventLE (a b : EventUsage) : Prop := a.eventId ≤ b.eventId

instance : DecidableRel eventLE := fun a b => Nat.decLe a.eventId b.eventId

/-- Strengthened ordering: non-decreasing event id, and strictly
increasing whenever the usage kind changes between consecutive events. -/
def eventStep (a b : EventUsage) : Prop :=
  a.eventId ≤ b.eventId ∧ (a.usage ≠ b.usage → a.eventId < b.eventId)

instance : DecidableRel eventStep := fun _ _ => instDecidableAnd

/-- Non-overlap of two ranges in emission order. -/
def overlapFree (r1 r2 : UsageRange) : Prop := r1.endEventId < r2.startEventId

instance : DecidableRel overlapFree := fun a b => Nat.decLt a.endEventId b.startEventId

lemma combineGo_spec : ∀ (es : List EventUsage) (s l k : Nat), s ≤ l →
    List.Chain eventStep ⟨l, k⟩ es →
    (∀ r ∈ combineGo s l k es, r.startEventId ≤ r.endEventId) ∧
    (∀ r ∈ combineGo s l k es, s ≤ r.startEventId) ∧
    List.Pairwise overlapFree (combineGo s l k es) := by
  intro es
  induction es with
  | nil =>
    intro s l k hsl _
    refine ⟨?_, ?_, ?_⟩ <;> simp [combineGo]
    exact hsl
  | cons e es ih =>
    intro s l k hsl hch
    rw [List.chain_cons] at hch
    obtain ⟨hstep, hch⟩ := hch
    by_cases hk : e.usage = k
    · subst hk
      have hres := ih s e.eventId e.usage (le_trans hsl hstep.1) hch
      simpa [combineGo] using hres
    · have hlt : l < e.eventId := hstep.2 (fun h => hk h.symm)
      obtain ⟨ha, hb, hc⟩ := ih e.eventId e.eventId e.usage (le_refl _) hch
      refine ⟨?_, ?_, ?_⟩
      · intro r hr
        simp only [combineGo, if_neg hk, List.mem_cons] at hr
        rcases hr with rfl | hr
        · exact hsl
        · exact ha r hr
      · intro r hr
        simp only [combineGo, if_neg hk, List.mem_cons] at hr
        rcases hr with rfl | hr
        · exact le_refl _
        · exact le_trans (le_trans hsl (le_of_lt hlt)) (hb r hr)
      · simp only [combineGo, if_neg hk]
        rw [List.pairwise_cons]
        refine ⟨?_, hc⟩
        intro r hr
        exact lt_of_lt_of_le hlt (hb r hr)

lemma pairwise_start_lt (rs : List UsageRange)
    (hse : ∀ r ∈ rs, r.startEventId ≤ r.endEventId)
    (h : List.Pairwise overlapFree rs) :
    List.Pairwise (fun r1 r2 => r1.startEventId < r2.startEventId) rs := by
  induction rs with
  | nil => exact List.Pairwise.nil
  | cons r rs ih =>
    rw [List.pairwise_cons] at h ⊢
    refine ⟨?_, ih (fun x hx => hse x (List.mem_cons_of_mem r hx)) h.2⟩
    intro x hx
    exact lt_of_le_of_lt (hse r (List.mem_cons_self r rs)) (h.1 x hx)

/-- The event sequence of concrete scenario 1. -/
def scenario1 : List EventUsage :=
  [⟨10, readKind⟩, ⟨12, readKind⟩, ⟨15, writeKind⟩, ⟨20, writeKind⟩, ⟨21, readKind⟩]

/-- Claim C2: the coalescer applied to
[(10,Read),(12,Read),(15,Write),(20,Write),(21,Read)] produces exactly
[(10,12,Read),(15,20,Write),(21,21,Read)]: equal-kind events extend the
open range's end and a kind change emits the open range and starts a
new one. -/
theorem claim_C2_coalesce_scenario1 :
    CombineUsageEvents scenario1 =
      [⟨10, 12, readKind⟩, ⟨15, 20, writeKind⟩, ⟨21, 21, readKind⟩] := by
  decide

/-- Claim C3 (counterexample): the claim as stated is false.  The input
[(5,1),(5,2)] is ordered by non-decreasing eventId with a duplicate at
the same eventId, which the claim explicitly allows, yet the coalescer
emits [(5,5,1),(5,5,2)] whose start ids are not strictly increasing and
which overlap (both ranges contain event 5). -/
theorem claim_C3_counterexample :
    List.Chain' eventLE [⟨5, 1⟩, ⟨5, 2⟩] ∧
    CombineUsageEvents [⟨5, 1⟩, ⟨5, 2⟩] = [⟨5, 5, 1⟩, ⟨5, 5, 2⟩] ∧
    ¬ List.Pairwise (fun r1 r2 => r1.startEventId < r2.startEventId)
        (CombineUsageEvents [⟨5, 1⟩, ⟨5, 2⟩]) ∧
    ¬ List.Pairwise overlapFree (CombineUsageEvents [⟨5, 1⟩, ⟨5, 2⟩]) := by
  refine ⟨?_, by decide, ?_, ?_⟩
  · simp [List.chain'_cons, eventLE]
  · decide
  · decide

/-- Claim C3 (amended): for every input event sequence ordered by
non-decreasing eventId in which consecutive events of different usage
kinds never share an eventId (their ids strictly increase), the
coalescer's output is ordered by startEventId strictly increasing, the
ranges are collectively non-overlapping, and every range satisfies
startEventId ≤ endEventId. -/
theorem claim_C3_amended (es : List EventUsage)
    (h : List.Chain' eventStep es) :
    (∀ r ∈ CombineUsageEvents es, r.startEventId ≤ r.endEventId) ∧
    List.Pairwise (fun r1 r2 => r1.startEventId < r2.startEventId)
      (CombineUsageEvents es) ∧
    List.Pairwise overlapFree (CombineUsageEvents es) := by
  cases es with
  | nil => exact ⟨by simp [CombineUsageEvents], by simp [CombineUsageEvents], by simp [CombineUsageEvents]⟩
  | cons e es =>
    have hch : List.Chain eventStep e es := h
    have hres := combineGo_spec es e.eventId e.eventId e.usage (le_refl _) hch
    obtain ⟨ha, _, hc⟩ := hres
    have heq : CombineUsageEvents (e :: es) = combineGo e.eventId e.eventId e.usage es := rfl
    rw [heq]
    exact ⟨ha, pairwise_start_lt _ ha hc, hc⟩

/-- Claim C3 amended, witnessed at the scenario-1 input. -/
theorem claim_C3_amended_witness :
    List.Chain' eventStep scenario1 ∧
    ((∀ r ∈ CombineUsageEvents scenario1, r.startEventId ≤ r.endEventId) ∧
     List.Pairwise (fun r1 r2 => r1.startEventId < r2.startEventId)
       (CombineUsageEvents scenario1) ∧
     List.Pairwise overlapFree (CombineUsageEvents scenario1)) :=
  ⟨by simp [scenario1, List.chain'_cons, eventStep, readKind, writeKind],
   claim_C3_amended scenario1
     (by simp [scenario1, List.chain'_cons, eventStep, readKind, writeKind])⟩

/-- The read-only capture context consumed by the panel: the resource
catalog (`GetResources`/`GetResource`), the structured file's chunk
table (`GetStructuredFile().chunks`), the backend usage query
(`IReplayController::GetUsage`), resource naming, and the predicates
backing the small UI toggles in `Inspect`. -/
structure CaptureContext where
  resources : List ResourceDescription
  chunks : List SDChunk
  getUsage : ResourceId → List EventUsage
  resourceName : ResourceId → String
  usageToStr : Nat → String
  hasTexOrBuf : ResourceId → Bool
  hasCustomName : ResourceId → Bool

/-- `ICaptureContext::GetResource(id)`: the catalog entry whose ID
matches, if any. -/
def getResource (ctx : CaptureContext) (id : ResourceId) :
    Option ResourceDescription :=
  ctx.resources.find? (fun d => d.ID == id)

/-- A two-column row of the relatedResources or resourceUsage tree,
with its ResourceIdRole data. -/
structure TreeItem where
  col0 : String
  col1 : String
  tag : Nat
deriving DecidableEq

/-- A row of the initChunks tree: the two text columns of the root item
plus the structured children added below it. -/
structure InitItem where
  col0 : String
  col1 : String
  children : List String
deriving DecidableEq

/-- The initChunks row built for one initialisation-chunk index, per
the `chunk < file.chunks.size()` bounds check in `Inspect`: in bounds,
the chunk's name and structured children; out of bounds, the
"Invalid chunk index" placeholder in the value column. -/
def mkInitChunkItem (chunks : List SDChunk) (c : Nat) : InitItem :=
  match chunks[c]? with
  | some chunkObj => ⟨chunkObj.name, "", chunkObj.children⟩
  | none => ⟨"", "Invalid chunk index " ++ toString c, []⟩

/-- The rows the `GUIInvoke::call` callback adds to the resourceUsage
tree for a list of raw usage events: one row per coalesced range, text
"EID s" or "EID s-e", the usage string, and the end event id as data. -/
def coalesceItems (ctx : CaptureContext) (usage : List EventUsage) :
    List TreeItem :=
  (CombineUsageEvents usage).map (fun r =>
    ⟨if r.startEventId = r.endEventId then
        "EID " ++ toString r.startEventId
      else
        "EID " ++ toString r.startEventId ++ "-" ++ toString r.endEventId,
     ctx.usageToStr r.usageKind, r.endEventId⟩)

/-- The panel's state: the inspected id `m_Resource`, the displayed
name, the visibility toggles, the three data views, and the queue of
issued-but-uncompleted `GetUsage` requests (each `AsyncInvoke` in
`Inspect` enqueues one; there is no token field because the source
class has none). -/
structure InspectorState where
  resource : ResourceId
  resourceName : String
  viewContentsVisible : Bool
  resetNameVisible : Bool
  related : List TreeItem
  initChunks : List InitItem
  usageItems : List TreeItem
  pending : List ResourceId
  renameEnabled : Bool
deriving DecidableEq

/-- The state after the constructor runs: no resource selected, all
views empty, no request issued. -/
def initialState : InspectorState :=
  { resource := 0
    resourceName := "No Resource Selected"
    viewContentsVisible := false
    resetNameVisible := false
    related := []
    initChunks := []
    usageItems := []
    pending := []
    renameEnabled := false }

/-- `ResourceInspector::Inspect(id)`: early-out when `m_Resource == id`;
otherwise record the id, refresh the toggles, clear the three views,
issue the asynchronous `GetUsage(id)` request (always, before the
description lookup is examined), then either populate name, related
resources and initialisation chunks from the description, or fall back
to the null resource with the "No Resource Selected" name. -/
def inspect (ctx : CaptureContext) (id : ResourceId) (s : InspectorState) :
    InspectorState :=
  if s.resource = id then s
  else
    let s1 : InspectorState :=
      { s with
        resource := id
        viewContentsVisible := ctx.hasTexOrBuf id
        resetNameVisible := ctx.hasCustomName id
        related := []
        initChunks := []
        usageItems := []
        pending := s.pending ++ [id] }
    match getResource ctx id with
    | some d =>
      { s1 with
        resourceName := ctx.resourceName id
        related :=
          d.parentResources.map (fun p => ⟨"Parent", ctx.resourceName p, p⟩) ++
          d.derivedResources.map (fun dr => ⟨"Derived", ctx.resourceName dr, dr⟩)
        initChunks := d.initialisationChunks.map (mkInitChunkItem ctx.chunks) }
    | none =>
      { s1 with
        resource := 0
        resourceName := "No Resource Selected" }

/-- Delivery of the completion of the i-th pending `GetUsage` request:
runs the body of the `GUIInvoke::call` callback from `Inspect`, which
appends one row per coalesced range to the resourceUsage tree.  The
source callback performs no staleness or identity check before adding
the rows. -/
def completeFetch (ctx : CaptureContext) (i : Nat) (s : InspectorState) :
    InspectorState :=
  match s.pending[i]? with
  | some id =>
    { s with
      usageItems := s.usageItems ++ coalesceItems ctx (ctx.getUsage id)
      pending := s.pending.eraseIdx i }
  | none => s

/-- `ResourceInspector::OnLogfileClosed()`: disable renaming, hide the
toggles, reset the name, clear the three views and null the inspected
id.  The pending queue is untouched: the source has no token or other
invalidation of in-flight requests. -/
def onLogfileClosed (s : InspectorState) : InspectorState :=
  { s with
    renameEnabled := false
    resetNameVisible := false
    resourceName := "No Resource Selected"
    viewContentsVisible := false
    initChunks := []
    related := []
    usageItems := []
    resource := 0 }

/-- `ResourceInspector::OnEventChanged(eventID)`: calls
`Inspect(m_Resource)` (always the early-out path) and resets the
resource list model; the session state is untouched and the eventID is
never consulted. -/
def onEventChanged (ctx : CaptureContext) (eventID : Nat)
    (s : InspectorState) : InspectorState :=
  inspect ctx s.resource s

/-- A capture with two resources A=1 and B=2 whose usage differs, used
to exercise the stale-completion interleaving. -/
def ctxAB : CaptureContext :=
  { resources := [⟨1, [], [], []⟩, ⟨2, [], [], []⟩]
    chunks := []
    getUsage := fun id =>
      if id = 1 then [⟨10, readKind⟩]
      else if id = 2 then [⟨20, writeKind⟩]
      else []
    resourceName := fun i => "Resource " ++ toString i
    usageToStr := fun u => toString u
    hasTexOrBuf := fun _ => false
    hasCustomName := fun _ => false }

/-- State after Inspect(A). -/
def s1AB : InspectorState := inspect ctxAB 1 initialState

/-- State after Inspect(A) then Inspect(B), with both fetches still
in flight. -/
def s2AB : InspectorState := inspect ctxAB 2 s1AB

/-- State after A's fetch completes, arriving after B was requested. -/
def s3AB : InspectorState := completeFetch ctxAB 0 s2AB

/-- Claim C1 (counterexample): the claim as stated is false.  After
Inspect(A=1) then Inspect(B=2), A's completion arriving after B was
requested is not discarded: it mutates the displayed usage timeline,
which then holds A's coalesced data, not B's. -/
theorem claim_C1_counterexample :
    s1AB.pending = [1] ∧
    s2AB.pending = [1, 2] ∧
    s2AB.usageItems = [] ∧
    s3AB.usageItems = coalesceItems ctxAB (ctxAB.getUsage 1) ∧
    s3AB.usageItems ≠ [] ∧
    s3AB.usageItems ≠ coalesceItems ctxAB (ctxAB.getUsage 2) :=
  ⟨rfl, rfl, rfl, rfl, by decide, by decide⟩

/-- Claim C1 (amended): a completion carrying the results of a pending
request is never discarded: the `GUIInvoke::call` callback has no token
or identity guard, so delivering the i-th pending request for resource
`a` always appends the coalesced rows of `a`'s usage to the displayed
timeline, regardless of which resource is currently inspected. -/
theorem claim_C1_amended (ctx : CaptureContext) (i : Nat) (a : ResourceId)
    (s : InspectorState) (h : s.pending[i]? = some a) :
    (completeFetch ctx i s).usageItems =
      s.usageItems ++ coalesceItems ctx (ctx.getUsage a) := by
  simp [completeFetch, h]

/-- Claim C1 amended, witnessed on the Inspect(A); Inspect(B);
A-completes interleaving. -/
theorem claim_C1_witness :
    s2AB.pending[0]? = some 1 ∧
    (completeFetch ctxAB 0 s2AB).usageItems =
      s2AB.usageItems ++ coalesceItems ctxAB (ctxAB.getUsage 1) :=
  ⟨rfl, claim_C1_amended ctxAB 0 1 s2AB rfl⟩

/-- Claim C4: Inspect(id) with id equal to the currently inspected
resource id is a no-op: the state is unchanged and no asynchronous
usage query is issued (the pending queue is unchanged). -/
theorem claim_C4_inspect_noop (ctx : CaptureContext) (id : ResourceId)
    (s : InspectorState) (h : s.resource = id) :
    inspect ctx id s = s ∧ (inspect ctx id s).pending = s.pending := by
  have he : inspect ctx id s = s := by simp [inspect, h]
  exact ⟨he, by rw [he]⟩

/-- Claim C4, witnessed at Inspect(0) on the initial state. -/
theorem claim_C4_witness :
    initialState.resource = 0 ∧
    (inspect ctxAB 0 initialState = initialState ∧
     (inspect ctxAB 0 initialState).pending = initialState.pending) :=
  ⟨rfl, claim_C4_inspect_noop ctxAB 0 initialState rfl⟩

/-- Claim C5: a position-changed notification (OnEventChanged) never
issues a new asynchronous usage query: it calls Inspect with the
unchanged current resource id, which takes the early-out path, so the
state — and in particular the queue of issued requests — is unchanged. -/
theorem claim_C5_no_query_on_position_change (ctx : CaptureContext)
    (e : Nat) (s : InspectorState) :
    onEventChanged ctx e s = s ∧ (onEventChanged ctx e s).pending = s.pending := by
  have he : onEventChanged ctx e s = s := by simp [onEventChanged, inspect]
  exact ⟨he, by rw [he]⟩

/-- A capture with one resource 3 whose usage is scenario 1's event
list. -/
def ctx6 : CaptureContext :=
  { resources := [⟨3, [], [], []⟩]
    chunks := []
    getUsage := fun id => if id = 3 then scenario1 else []
    resourceName := fun i => "Resource " ++ toString i
    usageToStr := fun u => toString u
    hasTexOrBuf := fun _ => false
    hasCustomName := fun _ => false }

/-- State with scenario 1's coalesced ranges loaded in the usage view. -/
def s6 : InspectorState := completeFetch ctx6 0 (inspect ctx6 3 initialState)

/-- Claim C6 (counterexample): the claim as stated is false.  With
scenario 1's ranges loaded, OnEventChanged(18) leaves the state
completely unchanged and its result does not depend on the event id at
all (18 and 5 give identical results), so no range — in particular not
(15,20,Write) — is marked as the active one; the state has no
active-range component to mark. -/
theorem claim_C6_counterexample :
    s6.usageItems =
      [⟨"EID 10-12", "1", 12⟩, ⟨"EID 15-20", "2", 20⟩, ⟨"EID 21", "1", 21⟩] ∧
    onEventChanged ctx6 18 s6 = s6 ∧
    onEventChanged ctx6 5 s6 = onEventChanged ctx6 18 s6 := by
  have h18 : onEventChanged ctx6 18 s6 = s6 := by simp [onEventChanged, inspect]
  have h5 : onEventChanged ctx6 5 s6 = s6 := by simp [onEventChanged, inspect]
  exact ⟨by decide, h18, by rw [h5, h18]⟩

/-- Claim C6 (amended): OnEventChanged leaves the session state
unchanged for every event position, and its result is independent of
the event id; the code implements no active-range highlighting, so no
range is ever marked current. -/
theorem claim_C6_amended (ctx : CaptureContext) (e1 e2 : Nat)
    (s : InspectorState) :
    onEventChanged ctx e1 s = s ∧
    onEventChanged ctx e1 s = onEventChanged ctx e2 s := by
  have h1 : onEventChanged ctx e1 s = s := by simp [onEventChanged, inspect]
  have h2 : onEventChanged ctx e2 s = s := by simp [onEventChanged, inspect]
  exact ⟨h1, by rw [h1, h2]⟩

/-- Claim C7: chunk resolution is bounds-checked.  After Inspect of a
catalogued resource, the initialization view holds exactly one row per
initialisation-chunk index; an index at or beyond the chunk table's
length yields the explicit "Invalid chunk index" placeholder row (no
chunk-table access), while an in-bounds index resolves the chunk and
adds its name and structured contents. -/
theorem claim_C7_chunk_bounds (ctx : CaptureContext) (id : ResourceId)
    (s : InspectorState) (d : ResourceDescription)
    (hd : getResource ctx id = some d) (hne : s.resource ≠ id) :
    (inspect ctx id s).initChunks =
      d.initialisationChunks.map (mkInitChunkItem ctx.chunks) ∧
    (∀ c, ctx.chunks.length ≤ c →
      mkInitChunkItem ctx.chunks c =
        ⟨"", "Invalid chunk index " ++ toString c, []⟩) ∧
    (∀ c, (h : c < ctx.chunks.length) →
      mkInitChunkItem ctx.chunks c =
        ⟨(ctx.chunks.get ⟨c, h⟩).name, "", (ctx.chunks.get ⟨c, h⟩).children⟩) := by
  refine ⟨by simp [inspect, hd, hne], ?_, ?_⟩
  · intro c hc
    have hnone : ctx.chunks[c]? = none := by
      rw [List.getElem?_eq_none_iff]
      exact hc
    simp [mkInitChunkItem, hnone]
  · intro c hc
    have hsome : ctx.chunks[c]? = some (ctx.chunks.get ⟨c, hc⟩) := by
      rw [List.getElem?_eq_getElem hc]
      rfl
    simp [mkInitChunkItem, hsome]

/-- A capture with a 3-entry chunk table and one resource (id 4) whose
single initialisation-chunk index 7 is out of range. -/
def ctx7 : CaptureContext :=
  { resources := [⟨4, [], [], [7]⟩]
    chunks := [⟨"c0", []⟩, ⟨"c1", []⟩, ⟨"c2", []⟩]
    getUsage := fun _ => []
    resourceName := fun i => "Resource " ++ toString i
    usageToStr := fun u => toString u
    hasTexOrBuf := fun _ => false
    hasCustomName := fun _ => false }

/-- The description of resource 4 in `ctx7`. -/
def desc7 : ResourceDescription := ⟨4, [], [], [7]⟩

/-- Claim C7, witnessed at chunk index 7 against the 3-entry chunk
table: the initialization view gets exactly one placeholder row marked
with the invalid index. -/
theorem claim_C7_witness :
    getResource ctx7 4 = some desc7 ∧
    initialState.resource ≠ 4 ∧
    (inspect ctx7 4 initialState).initChunks =
      [⟨"", "Invalid chunk index 7", []⟩] ∧
    ((inspect ctx7 4 initialState).initChunks =
      desc7.initialisationChunks.map (mkInitChunkItem ctx7.chunks) ∧
    (∀ c, ctx7.chunks.length ≤ c →
      mkInitChunkItem ctx7.chunks c =
        ⟨"", "Invalid chunk index " ++ toString c, []⟩) ∧
    (∀ c, (h : c < ctx7.chunks.length) →
      mkInitChunkItem ctx7.chunks c =
        ⟨(ctx7.chunks.get ⟨c, h⟩).name, "", (ctx7.chunks.get ⟨c, h⟩).children⟩)) :=
  ⟨rfl, by decide, by decide,
   claim_C7_chunk_bounds ctx7 4 initialState desc7 rfl (by decide)⟩

/-- Claim C8: Inspect of an id with no matching ResourceDescription is
treated as "no resource selected": the stored id falls back to the null
id, the displayed name reads "No Resource Selected", and the related,
initialization and usage views are all empty; the handler is total, so
no fault occurs. -/
theorem claim_C8_not_found (ctx : CaptureContext) (id : ResourceId)
    (s : InspectorState) (hd : getResource ctx id = none)
    (hne : s.resource ≠ id) :
    (inspect ctx id s).resource = 0 ∧
    (inspect ctx id s).resourceName = "No Resource Selected" ∧
    (inspect ctx id s).related = [] ∧
    (inspect ctx id s).initChunks = [] ∧
    (inspect ctx id s).usageItems = [] := by
  simp [inspect, hd, hne]

/-- A capture with an empty resource catalog. -/
def ctx8 : CaptureContext :=
  { resources := []
    chunks := []
    getUsage := fun _ => []
    resourceName := fun i => "Resource " ++ toString i
    usageToStr := fun u => toString u
    hasTexOrBuf := fun _ => false
    hasCustomName := fun _ => false }

/-- Claim C8, witnessed at Inspect(5) against an empty catalog
(concrete scenario 2). -/
theorem claim_C8_witness :
    getResource ctx8 5 = none ∧
    initialState.resource ≠ 5 ∧
    ((inspect ctx8 5 initialState).resource = 0 ∧
     (inspect ctx8 5 initialState).resourceName = "No Resource Selected" ∧
     (inspect ctx8 5 initialState).related = [] ∧
     (inspect ctx8 5 initialState).initChunks = [] ∧
     (inspect ctx8 5 initialState).usageItems = []) :=
  ⟨rfl, by decide, claim_C8_not_found ctx8 5 initialState rfl (by decide)⟩

/-- Claim C9 (counterexample): the claim as stated is false.  Closing
the capture does not invalidate the in-flight fetch: there is no
request token, the pending request survives `OnLogfileClosed`, and its
completion still mutates the (just-cleared) usage timeline. -/
theorem claim_C9_counterexample :
    (onLogfileClosed s1AB).resource = 0 ∧
    (onLogfileClosed s1AB).usageItems = [] ∧
    (onLogfileClosed s1AB).pending = [1] ∧
    (completeFetch ctxAB 0 (onLogfileClosed s1AB)).usageItems =
      coalesceItems ctxAB (ctxAB.getUsage 1) ∧
    (completeFetch ctxAB 0 (onLogfileClosed s1AB)).usageItems ≠ [] :=
  ⟨rfl, rfl, rfl, rfl, by decide⟩

/-- Claim C9 (amended): on capture close the session clears the current
inspected id back to the null ResourceId and clears all displayed
relationship, initialization and usage data, but it does not invalidate
in-flight usage fetches: there is no request token and the pending
request queue is left untouched, so a completion arriving after close
can still mutate the usage view. -/
theorem claim_C9_amended (s : InspectorState) :
    (onLogfileClosed s).resource = 0 ∧
    (onLogfileClosed s).resourceName = "No Resource Selected" ∧
    (onLogfileClosed s).related = [] ∧
    (onLogfileClosed s).initChunks = [] ∧
    (onLogfileClosed s).usageItems = [] ∧
    (onLogfileClosed s).pending = s.pending :=
  ⟨rfl, rfl, rfl, rfl, rfl, rfl⟩

/-- Claim C10: Inspect of a non-null id absent from the catalog resets
the stored id to the null ResourceId, not to the requested id, so a
second Inspect with the same absent id passes the equality guard and
re-runs the full inspection, issuing a fresh asynchronous usage query. -/
theorem claim_C10_absent_id_reinspect (ctx : CaptureContext)
    (id : ResourceId) (s : InspectorState) (h0 : id ≠ 0)
    (hd : getResource ctx id = none) (hne : s.resource ≠ id) :
    (inspect ctx id s).resource = 0 ∧
    (inspect ctx id (inspect ctx id s)).pending =
      (inspect ctx id s).pending ++ [id] ∧
    inspect ctx id (inspect ctx id s) ≠ inspect ctx id s := by
  have hpend : ∀ t : InspectorState, t.resource ≠ id →
      (inspect ctx id t).pending = t.pending ++ [id] := by
    intro t ht
    simp [inspect, hd, ht]
  have h1 : (inspect ctx id s).resource = 0 := by simp [inspect, hd, hne]
  have hne2 : (inspect ctx id s).resource ≠ id := by
    rw [h1]
    exact fun hh => h0 hh.symm
  refine ⟨h1, hpend (inspect ctx id s) hne2, ?_⟩
  intro heq
  have hp := congrArg InspectorState.pending heq
  rw [hpend (inspect ctx id s) hne2] at hp
  simp at hp

/-- Claim C10, witnessed at Inspect(5) twice against an empty catalog. -/
theorem claim_C10_witness :
    (5 : ResourceId) ≠ 0 ∧
    getResource ctx8 5 = none ∧
    initialState.resource ≠ 5 ∧
    ((inspect ctx8 5 initialState).resource = 0 ∧
     (inspect ctx8 5 (inspect ctx8 5 initialState)).pending =
       (inspect ctx8 5 initialState).pending ++ [5] ∧
     inspect ctx8 5 (inspect ctx8 5 initialState) ≠ inspect ctx8 5 initialState) :=
  ⟨by decide, rfl, by decide,
   claim_C10_absent_id_reinspect ctx8 5 initialState (by decide) rfl (by decide)⟩
